import Mathlib

/-!
Verification of the realtime subscription and reconnection core of the web
SDK.  The JavaScript source keeps one insertion-ordered Set of channel
names, one insertion-ordered Map from integer handles to subscriptions, a
single optional WebSocket, a one-shot reconnect-suppression flag, a
reconnect-attempt counter and the last parsed inbound message.  The
embedding below renders the insertion-ordered Set and Map as ordered lists
with the corresponding add, set and delete semantics, makes timers and
socket actions explicit in return values, and renders thrown JavaScript
exceptions as an Except-valued body wrapped by the handler's catch.
-/

/-- WebSocket readyState constant CONNECTING (value 0). -/
def wsCONNECTING : Fin 4 := 0

/-- WebSocket readyState constant OPEN (value 1). -/
def wsOPEN : Fin 4 := 1

/-- WebSocket readyState constant CLOSING (value 2). -/
def wsCLOSING : Fin 4 := 2

/-- WebSocket readyState constant CLOSED (value 3). -/
def wsCLOSED : Fin 4 := 3

/-- A live WebSocket object: its readyState and the URL it was opened with. -/
structure Socket where
  readyState : Fin 4
  url : String
  deriving DecidableEq

/-- A parsed inbound frame.  JSON is untyped, so the fields the handler
actually reads are kept independent of the type tag: the data.code field (an
integer, when present), the data.channels field (a string list, when
present) and the truthiness of the data.user field. -/
structure RTMessage where
  type : String
  code : Option Int := none
  channels : Option (List String) := none
  user : Bool := false
  deriving DecidableEq

/-- The realtime state record of the Client (field realtime in the source).
The channels Set is an insertion-ordered list without duplicates and the
subscriptions Map is an insertion-ordered association list; callbacks are
identified by their integer handle. -/
structure Realtime where
  socket : Option Socket := none
  url : String := ""
  lastMessage : Option RTMessage := none
  channels : List String := []
  subscriptions : List (Nat × List String) := []
  subscriptionsCounter : Nat := 0
  reconnect : Bool := true
  reconnectAttempts : Nat := 0
  deriving DecidableEq

/-- The fresh realtime state a new Client starts from. -/
def initialRealtime : Realtime := {}

/-- Client configuration fields read by the realtime core. -/
structure Config where
  endpointRealtime : String
  project : String

/-- Result of JSON.parse on the stored cookieFallback value: either the parse
throws (malformed) or it yields an object, rendered as a lookup function
from keys to optional string values.  A missing stored value parses the
default empty-object text, which is the parsed constructor with an
everywhere-none lookup. -/
inductive Cookie
  | malformed
  | parsed (lookup : String → Option String)

/-- Ambient browser environment consulted by the message handler. -/
structure Env where
  cookie : Cookie

/-- JavaScript Set.add on the insertion-ordered channel list: no effect when
the element is already present, otherwise appended at the end. -/
def setAdd (c : String) (l : List String) : List String :=
  if c ∈ l then l else l ++ [c]

/-- JavaScript Map.set on the insertion-ordered association list: replaces
the value in place when the key is present, otherwise appends the pair. -/
def mapSet (k : Nat) (v : List String) : List (Nat × List String) → List (Nat × List String)
  | [] => [(k, v)]
  | p :: rest => if p.1 = k then (k, v) :: rest else p :: mapSet k v rest

/-- JavaScript Map.delete: removes the entry with the given key, if any. -/
def mapDelete (k : Nat) (m : List (Nat × List String)) : List (Nat × List String) :=
  m.filter (fun p => decide (p.1 ≠ k))

/-- Tiered reconnect backoff (realtime.getTimeout in the source), reading
the current reconnect-attempt counter. -/
def getTimeout (reconnectAttempts : Nat) : Nat :=
  if reconnectAttempts < 5 then 1000
  else if reconnectAttempts < 15 then 5000
  else if reconnectAttempts < 100 then 10000
  else 60000

/-- Serialisation of URLSearchParams at the decoded key-value level: the
pairs joined as key=value with ampersands in insertion order. -/
def serializeParams (ps : List (String × String)) : String :=
  String.intercalate "&" (ps.map (fun p => p.1 ++ "=" ++ p.2))

/-- Query parameters built by createSocket: the project id first, then one
repeated channels parameter per channel in the set, in set order. -/
def realtimeParams (project : String) (channels : List String) : List (String × String) :=
  ("project", project) :: channels.map (fun c => ("channels[]", c))

/-- The connection URL computed by createSocket from the configured realtime
endpoint, the project id and the channel set. -/
def realtimeUrl (cfg : Config) (channels : List String) : String :=
  cfg.endpointRealtime ++ "/realtime?" ++ serializeParams (realtimeParams cfg.project channels)

/-- The third disjunct of the reconnect decision: the optional chaining
expression comparing the existing socket's readyState against OPEN, false
when no socket exists. -/
def socketStale (socket : Option Socket) : Bool :=
  match socket with
  | some s => decide (wsOPEN < s.readyState)
  | none => false

/-- The guard of the close-before-replace step: the existing socket is
present and its readyState is below CLOSING, so it is CONNECTING or OPEN. -/
def socketLive (socket : Option Socket) : Bool :=
  match socket with
  | some s => decide (s.readyState < wsCLOSING)
  | none => false

/-- Result of one createSocket invocation: the updated realtime state,
whether the previously existing socket was closed, and the URL a new socket
was opened to, if one was. -/
structure CSOut where
  state : Realtime
  closedPrevious : Bool
  opened : Option String
  deriving DecidableEq

/-- The realtime.createSocket function.  Does nothing when the channel set
is empty; otherwise computes the target URL and opens a fresh socket when
the URL changed, no socket exists, or the socket is CLOSING or CLOSED,
first suppressing the reconnect handler and closing the old socket when that
one is still CONNECTING or OPEN. -/
def createSocket (cfg : Config) (rt : Realtime) : CSOut :=
  if rt.channels.length < 1 then ⟨rt, false, none⟩
  else if (realtimeUrl cfg rt.channels != rt.url) || rt.socket.isNone || socketStale rt.socket then
    ⟨{ (if socketLive rt.socket then { rt with reconnect := false } else rt) with
        url := realtimeUrl cfg rt.channels,
        socket := some ⟨wsCONNECTING, realtimeUrl cfg rt.channels⟩ },
      socketLive rt.socket, some (realtimeUrl cfg rt.channels)⟩
  else ⟨rt, false, none⟩

/-- The policy-violation test of the close listener: the last parsed message
has the error type tag and its data.code field equals 1008. -/
def isPolicyViolation : Option RTMessage → Bool
  | some m => m.type == "error" && m.code == some 1008
  | none => false

/-- The close listener installed by createSocket.  Returns the updated state
together with the list of reconnect timer delays it schedules (empty or a
single getTimeout delay). -/
def handleClose (rt : Realtime) : Realtime × List Nat :=
  if !rt.reconnect || isPolicyViolation rt.lastMessage then
    ({ rt with reconnect := true }, [])
  else
    (rt, [getTimeout rt.reconnectAttempts])

/-- The body of the reconnect timer scheduled by the close listener: it
increments the attempt counter and then invokes createSocket again. -/
def fireReconnect (cfg : Config) (rt : Realtime) : CSOut :=
  createSocket cfg { rt with reconnectAttempts := rt.reconnectAttempts + 1 }

/-- An outbound frame written to the socket by the message handler. -/
structure OutFrame where
  type : String
  session : String
  deriving DecidableEq

/-- The exceptions the try block of onMessage can raise: the JSON.parse of
the frame text throwing, the JSON.parse of the stored cookie throwing, and
the explicit throw of the error message's data. -/
inductive RTErr
  | parseFailure
  | cookieParseFailure
  | thrownErrorData (code : Option Int)
  deriving DecidableEq

/-- The localStorage key holding the session credential for a project. -/
def sessionKey (project : String) : String := "a_session_" ++ project

/-- The try block of realtime.onMessage, with thrown exceptions rendered as
the error constructor carrying the state at the point of the throw (state
mutations made before a throw persist).  A frame whose text fails to parse
is the none input.  On success it returns the updated state, the outbound
frames sent and the deferred callback invocations scheduled, each as a
handle paired with the dispatched event body. -/
def onMessageTry (cfg : Config) (env : Env) (rt : Realtime) (raw : Option RTMessage) :
    Except (Realtime × RTErr) (Realtime × List OutFrame × List (Nat × RTMessage)) :=
  match raw with
  | none => .error (rt, .parseFailure)
  | some message =>
    let rt1 := { rt with lastMessage := some message }
    if message.type == "connected" then
      match env.cookie with
      | .malformed => .error (rt1, .cookieParseFailure)
      | .parsed lookup =>
        match lookup (sessionKey cfg.project) with
        | some session =>
          if session != "" && !message.user then
            .ok (rt1, [⟨"authentication", session⟩], [])
          else
            .ok (rt1, [], [])
        | none => .ok (rt1, [], [])
    else if message.type == "event" then
      match message.channels with
      | some evch =>
        if !(evch.any (fun c => rt1.channels.contains c)) then
          .ok (rt1, [], [])
        else
          .ok (rt1, [],
            (rt1.subscriptions.filter (fun p => evch.any (fun c => p.2.contains c))).map
              (fun p => (p.1, message)))
      | none => .ok (rt1, [], [])
    else if message.type == "error" then
      .error (rt1, .thrownErrorData message.code)
    else
      .ok (rt1, [], [])

/-- The realtime.onMessage handler: the try block above wrapped in the catch
clause, which logs the exception and returns normally with no outbound
frames and no scheduled callbacks. -/
def onMessage (cfg : Config) (env : Env) (rt : Realtime) (raw : Option RTMessage) :
    Realtime × List OutFrame × List (Nat × RTMessage) :=
  match onMessageTry cfg env rt raw with
  | .ok r => r
  | .error e => (e.1, [], [])

/-- The Client.subscribe method restricted to the state it mutates: adds
every requested channel to the channel set, stores the subscription under a
fresh handle, increments the handle counter and returns the handle captured
by the unsubscribe closure.  The trailing connect call only debounces a
later createSocket and touches none of these fields. -/
def subscribe (channelArray : List String) (rt : Realtime) : Realtime × Nat :=
  let counter := rt.subscriptionsCounter
  ({ rt with
      channels := channelArray.foldl (fun l c => setAdd c l) rt.channels
      subscriptions := mapSet counter channelArray rt.subscriptions
      subscriptionsCounter := counter + 1 }, counter)

/-- The realtime.cleanUp function: every channel of the given list that is
in the channel set and is referenced by no remaining subscription is deleted
from the set.  The forEach-with-delete loop of the source decides each
element independently of the deletions of the others, so it denotes this
filter. -/
def cleanUp (channelList : List String) (rt : Realtime) : Realtime :=
  { rt with
      channels := rt.channels.filter (fun c =>
        !(channelList.contains c && !(rt.subscriptions.any (fun p => p.2.contains c)))) }

/-- The closure returned by subscribe, restricted to the state it mutates:
deletes the captured handle from the subscriptions map, then runs cleanUp on
the captured channel list against the already-shrunk map. -/
def unsubscribe (k : Nat) (channelArray : List String) (rt : Realtime) : Realtime :=
  cleanUp channelArray { rt with subscriptions := mapDelete k rt.subscriptions }

/-- One caller-visible operation on a Client: a subscribe call, or the
invocation of the unsubscribe closure that captured handle k. -/
inductive COp
  | sub (channelArray : List String)
  | unsub (k : Nat)

/-- Association lookup on the ledger of handles ever allocated. -/
def lookupSub (k : Nat) : List (Nat × List String) → Option (List String)
  | [] => none
  | p :: rest => if p.1 = k then some p.2 else lookupSub k rest

/-- A trace state: the realtime record together with the ledger recording,
for every handle a subscribe call ever allocated, the channel list the
returned closure captured. -/
structure TState where
  rt : Realtime
  ledger : List (Nat × List String)
  deriving DecidableEq

/-- One trace step.  A subscribe call allocates a handle and records the
captured pair in the ledger; invoking an unsubscribe closure runs the
unsubscribe body with the captured channel list.  A handle no subscribe ever
allocated has no closure, so such a step is a no-op. -/
def stepOp (s : TState) : COp → TState
  | .sub channelArray =>
    let r := subscribe channelArray s.rt
    ⟨r.1, s.ledger ++ [(r.2, channelArray)]⟩
  | .unsub k =>
    match lookupSub k s.ledger with
    | some channelArray => ⟨unsubscribe k channelArray s.rt, s.ledger⟩
    | none => s

/-- The trace state of a fresh Client. -/
def initialTState : TState := ⟨initialRealtime, []⟩

/-- Runs a finite sequence of subscribe and unsubscribe-closure invocations
from a fresh Client. -/
def runOps (ops : List COp) : TState := ops.foldl stepOp initialTState

/-!
General lemmas about the embedded ordered-set and ordered-map operations.
-/

lemma mem_setAdd {c a : String} {l : List String} : c ∈ setAdd a l ↔ c ∈ l ∨ c = a := by
  unfold setAdd
  split
  · rename_i h
    constructor
    · exact Or.inl
    · rintro (h1 | rfl)
      · exact h1
      · exact h
  · simp

lemma mem_foldl_setAdd (chs : List String) (l : List String) (c : String) :
    c ∈ chs.foldl (fun acc x => setAdd x acc) l ↔ c ∈ l ∨ c ∈ chs := by
  induction chs generalizing l with
  | nil => simp
  | cons a rest ih =>
    rw [List.foldl_cons, ih, mem_setAdd]
    simp only [List.mem_cons]
    tauto

lemma mapSet_fresh (k : Nat) (v : List String) (m : List (Nat × List String))
    (hk : ∀ p ∈ m, p.1 ≠ k) : mapSet k v m = m ++ [(k, v)] := by
  induction m with
  | nil => rfl
  | cons p rest ih =>
    have hp : p.1 ≠ k := hk p (List.mem_cons_self p rest)
    rw [mapSet, if_neg hp, List.cons_append, ih (fun q hq => hk q (List.mem_cons_of_mem p hq))]

lemma lookupSub_append_some {k : Nat} {v : List String} {m1 m2 : List (Nat × List String)}
    (h : lookupSub k m1 = some v) : lookupSub k (m1 ++ m2) = some v := by
  induction m1 with
  | nil => simp [lookupSub] at h
  | cons p rest ih =>
    rw [List.cons_append]
    by_cases hp : p.1 = k
    · rw [lookupSub, if_pos hp] at h ⊢
      exact h
    · rw [lookupSub, if_neg hp] at h ⊢
      exact ih h

lemma lookupSub_append_none {k : Nat} {m1 m2 : List (Nat × List String)}
    (h : lookupSub k m1 = none) : lookupSub k (m1 ++ m2) = lookupSub k m2 := by
  induction m1 with
  | nil => rfl
  | cons p rest ih =>
    rw [List.cons_append]
    by_cases hp : p.1 = k
    · rw [lookupSub, if_pos hp] at h
      exact absurd h (by simp)
    · rw [lookupSub, if_neg hp] at h ⊢
      exact ih h

lemma lookupSub_eq_none {k : Nat} {m : List (Nat × List String)}
    (h : ∀ p ∈ m, p.1 ≠ k) : lookupSub k m = none := by
  induction m with
  | nil => rfl
  | cons p rest ih =>
    rw [lookupSub, if_neg (h p (List.mem_cons_self p rest))]
    exact ih (fun q hq => h q (List.mem_cons_of_mem p hq))

lemma lookupSub_some_mem {k : Nat} {v : List String} {m : List (Nat × List String)}
    (h : lookupSub k m = some v) : (k, v) ∈ m := by
  induction m with
  | nil => simp [lookupSub] at h
  | cons p rest ih =>
    by_cases hp : p.1 = k
    · rw [lookupSub, if_pos hp] at h
      have hv : v = p.2 := by injection h with h1; exact h1.symm
      have hpv : ((k, v) : Nat × List String) = p := by
        cases p
        simp_all
      rw [hpv]
      exact List.mem_cons_self p rest
    · rw [lookupSub, if_neg hp] at h
      exact List.mem_cons_of_mem p (ih h)

lemma mem_mapDelete {p : Nat × List String} {k : Nat} {m : List (Nat × List String)} :
    p ∈ mapDelete k m ↔ p ∈ m ∧ p.1 ≠ k := by
  simp [mapDelete, List.mem_filter]

lemma mapDelete_of_not_mem {k : Nat} {m : List (Nat × List String)}
    (h : ∀ p ∈ m, p.1 ≠ k) : mapDelete k m = m := by
  rw [mapDelete, List.filter_eq_self]
  intro p hp
  simpa using h p hp

lemma any_contains_iff (m : List (Nat × List String)) (c : String) :
    (m.any fun p => p.2.contains c) = true ↔ ∃ p ∈ m, c ∈ p.2 := by
  rw [List.any_eq_true]
  constructor
  · rintro ⟨p, hp, hc⟩
    exact ⟨p, hp, List.elem_iff.mp hc⟩
  · rintro ⟨p, hp, hc⟩
    exact ⟨p, hp, List.elem_iff.mpr hc⟩

lemma mem_cleanUp (channelList : List String) (rt : Realtime) (c : String) :
    c ∈ (cleanUp channelList rt).channels ↔
      c ∈ rt.channels ∧ (c ∉ channelList ∨ ∃ p ∈ rt.subscriptions, c ∈ p.2) := by
  unfold cleanUp
  rw [List.mem_filter]
  cases hA : channelList.contains c with
  | false =>
    have hA2 : c ∉ channelList := by
      intro hm
      have hm2 : channelList.contains c = true := List.elem_iff.mpr hm
      rw [hA] at hm2
      cases hm2
    simp [hA, hA2]
  | true =>
    have hA2 : c ∈ channelList := List.elem_iff.mp hA
    cases hB : (rt.subscriptions.any fun p => p.2.contains c) with
    | false =>
      have hB2 : ¬ ∃ p ∈ rt.subscriptions, c ∈ p.2 := fun hex => by
        rw [(any_contains_iff rt.subscriptions c).mpr hex] at hB
        cases hB
      simp [hA, hA2, hB, hB2]
    | true =>
      have hB2 : ∃ p ∈ rt.subscriptions, c ∈ p.2 := (any_contains_iff rt.subscriptions c).mp hB
      simp [hA, hB, hB2]

lemma cleanUp_subscriptions (channelList : List String) (rt : Realtime) :
    (cleanUp channelList rt).subscriptions = rt.subscriptions := rfl

lemma socketStale_iff (so : Option Socket) :
    socketStale so = true ↔
      ∃ s, so = some s ∧ (s.readyState = wsCLOSING ∨ s.readyState = wsCLOSED) := by
  cases so with
  | none => simp [socketStale]
  | some s =>
    obtain ⟨rs, u⟩ := s
    fin_cases rs <;> simp [socketStale, wsOPEN, wsCLOSING, wsCLOSED]

lemma socketLive_iff (so : Option Socket) :
    socketLive so = true ↔
      ∃ s, so = some s ∧ (s.readyState = wsCONNECTING ∨ s.readyState = wsOPEN) := by
  cases so with
  | none => simp [socketLive]
  | some s =>
    obtain ⟨rs, u⟩ := s
    fin_cases rs <;> simp [socketLive, wsCONNECTING, wsOPEN, wsCLOSING]

lemma mem_mapSet {p : Nat × List String} {k : Nat} {v : List String}
    {m : List (Nat × List String)} (h : p ∈ mapSet k v m) : p ∈ m ∨ p = (k, v) := by
  induction m with
  | nil =>
    rw [mapSet] at h
    right
    simpa using h
  | cons q rest ih =>
    rw [mapSet] at h
    split at h
    · rcases List.mem_cons.mp h with h1 | h1
      · exact Or.inr h1
      · exact Or.inl (List.mem_cons_of_mem q h1)
    · rcases List.mem_cons.mp h with h1 | h1
      · exact Or.inl (h1 ▸ List.mem_cons_self q rest)
      · rcases ih h1 with h2 | h2
        · exact Or.inl (List.mem_cons_of_mem q h2)
        · exact Or.inr h2

lemma subscribe_fst (channelArray : List String) (rt : Realtime) :
    (subscribe channelArray rt).1 =
      { rt with
          channels := channelArray.foldl (fun l c => setAdd c l) rt.channels
          subscriptions := mapSet rt.subscriptionsCounter channelArray rt.subscriptions
          subscriptionsCounter := rt.subscriptionsCounter + 1 } := rfl

lemma stepOp_sub (s : TState) (channelArray : List String) :
    stepOp s (.sub channelArray) =
      ⟨(subscribe channelArray s.rt).1,
        s.ledger ++ [(s.rt.subscriptionsCounter, channelArray)]⟩ := rfl

lemma stepOp_unsub_found {s : TState} {k : Nat} {channelArray : List String}
    (h : lookupSub k s.ledger = some channelArray) :
    stepOp s (.unsub k) = ⟨unsubscribe k channelArray s.rt, s.ledger⟩ := by
  simp [stepOp, h]

lemma stepOp_unsub_missing {s : TState} {k : Nat}
    (h : lookupSub k s.ledger = none) : stepOp s (.unsub k) = s := by
  simp [stepOp, h]

/-- The reachability invariant of the trace machine: the channel set is the
union of the channel lists of the live subscriptions, every live handle and
every ledger handle is below the counter, and every live subscription
stores exactly the channel list its closure captured in the ledger. -/
structure SInv (s : TState) : Prop where
  chan : ∀ c, c ∈ s.rt.channels ↔ ∃ p ∈ s.rt.subscriptions, c ∈ p.2
  bound : ∀ p ∈ s.rt.subscriptions, p.1 < s.rt.subscriptionsCounter
  lbound : ∀ q ∈ s.ledger, q.1 < s.rt.subscriptionsCounter
  agree : ∀ p ∈ s.rt.subscriptions, lookupSub p.1 s.ledger = some p.2

lemma inv_initial : SInv initialTState := by
  constructor <;> simp [initialTState, initialRealtime]

lemma inv_stepOp {s : TState} (h : SInv s) (op : COp) : SInv (stepOp s op) := by
  cases op with
  | sub chs =>
    have hfresh : ∀ p ∈ s.rt.subscriptions, p.1 ≠ s.rt.subscriptionsCounter :=
      fun p hp => Nat.ne_of_lt (h.bound p hp)
    have hsubs : mapSet s.rt.subscriptionsCounter chs s.rt.subscriptions =
        s.rt.subscriptions ++ [(s.rt.subscriptionsCounter, chs)] :=
      mapSet_fresh _ _ _ hfresh
    rw [stepOp_sub, subscribe_fst]
    constructor
    · intro c
      show c ∈ chs.foldl (fun l x => setAdd x l) s.rt.channels ↔
        ∃ p ∈ mapSet s.rt.subscriptionsCounter chs s.rt.subscriptions, c ∈ p.2
      rw [hsubs, mem_foldl_setAdd, h.chan c]
      constructor
      · rintro (⟨p, hp, hc⟩ | hc)
        · exact ⟨p, List.mem_append.mpr (Or.inl hp), hc⟩
        · exact ⟨(s.rt.subscriptionsCounter, chs),
            List.mem_append.mpr (Or.inr (List.mem_singleton.mpr rfl)), hc⟩
      · rintro ⟨p, hp, hc⟩
        rcases List.mem_append.mp hp with hp1 | hp1
        · exact Or.inl ⟨p, hp1, hc⟩
        · rw [List.mem_singleton] at hp1
          subst hp1
          exact Or.inr hc
    · intro p hp
      show p.1 < s.rt.subscriptionsCounter + 1
      have hp2 : p ∈ mapSet s.rt.subscriptionsCounter chs s.rt.subscriptions := hp
      rw [hsubs] at hp2
      rcases List.mem_append.mp hp2 with hp1 | hp1
      · exact Nat.lt_succ_of_lt (h.bound p hp1)
      · rw [List.mem_singleton] at hp1
        subst hp1
        exact Nat.lt_succ_self _
    · intro q hq
      show q.1 < s.rt.subscriptionsCounter + 1
      have hq2 : q ∈ s.ledger ++ [(s.rt.subscriptionsCounter, chs)] := hq
      rcases List.mem_append.mp hq2 with hq1 | hq1
      · exact Nat.lt_succ_of_lt (h.lbound q hq1)
      · rw [List.mem_singleton] at hq1
        subst hq1
        exact Nat.lt_succ_self _
    · intro p hp
      show lookupSub p.1 (s.ledger ++ [(s.rt.subscriptionsCounter, chs)]) = some p.2
      have hp2 : p ∈ mapSet s.rt.subscriptionsCounter chs s.rt.subscriptions := hp
      rw [hsubs] at hp2
      rcases List.mem_append.mp hp2 with hp1 | hp1
      · exact lookupSub_append_some (h.agree p hp1)
      · rw [List.mem_singleton] at hp1
        subst hp1
        rw [lookupSub_append_none
          (lookupSub_eq_none (fun q hq => Nat.ne_of_lt (h.lbound q hq)))]
        simp [lookupSub]
  | unsub k =>
    cases hl : lookupSub k s.ledger with
    | none =>
      rw [stepOp_unsub_missing hl]
      exact h
    | some chs =>
      rw [stepOp_unsub_found hl]
      constructor
      · intro c
        show c ∈ (cleanUp chs
            { s.rt with subscriptions := mapDelete k s.rt.subscriptions }).channels ↔
          ∃ p ∈ mapDelete k s.rt.subscriptions, c ∈ p.2
        rw [mem_cleanUp]
        show c ∈ s.rt.channels ∧
            (c ∉ chs ∨ ∃ p ∈ mapDelete k s.rt.subscriptions, c ∈ p.2) ↔
          ∃ p ∈ mapDelete k s.rt.subscriptions, c ∈ p.2
        constructor
        · rintro ⟨hcmem, hnotin | hex⟩
          · obtain ⟨p, hp, hcp⟩ := (h.chan c).mp hcmem
            by_cases hpk : p.1 = k
            · exfalso
              have hag := h.agree p hp
              rw [hpk, hl] at hag
              injection hag with hv
              rw [← hv] at hcp
              exact hnotin hcp
            · exact ⟨p, mem_mapDelete.mpr ⟨hp, hpk⟩, hcp⟩
          · exact hex
        · rintro ⟨p, hp, hcp⟩
          exact ⟨(h.chan c).mpr ⟨p, (mem_mapDelete.mp hp).1, hcp⟩,
            Or.inr ⟨p, hp, hcp⟩⟩
      · intro p hp
        have hp2 : p ∈ mapDelete k s.rt.subscriptions := hp
        exact h.bound p (mem_mapDelete.mp hp2).1
      · intro q hq
        exact h.lbound q hq
      · intro p hp
        have hp2 : p ∈ mapDelete k s.rt.subscriptions := hp
        exact h.agree p (mem_mapDelete.mp hp2).1

lemma inv_foldl (ops : List COp) : ∀ s : TState, SInv s → SInv (ops.foldl stepOp s) := by
  induction ops with
  | nil => exact fun s hs => hs
  | cons op rest ih => exact fun s hs => ih _ (inv_stepOp hs op)

lemma inv_runOps (ops : List COp) : SInv (runOps ops) :=
  inv_foldl ops initialTState inv_initial

lemma stepOp_counter_mono (s : TState) (op : COp) :
    s.rt.subscriptionsCounter ≤ (stepOp s op).rt.subscriptionsCounter := by
  cases op with
  | sub chs =>
    rw [stepOp_sub, subscribe_fst]
    exact Nat.le_succ _
  | unsub k =>
    cases hl : lookupSub k s.ledger with
    | none =>
      rw [stepOp_unsub_missing hl]
    | some chs =>
      rw [stepOp_unsub_found hl]
      exact Nat.le_refl _

lemma stepOp_absent (s : TState) (op : COp) (k : Nat)
    (hcnt : k < s.rt.subscriptionsCounter)
    (habs : ∀ p ∈ s.rt.subscriptions, p.1 ≠ k) :
    (∀ p ∈ (stepOp s op).rt.subscriptions, p.1 ≠ k) ∧
      k < (stepOp s op).rt.subscriptionsCounter := by
  cases op with
  | sub chs =>
    rw [stepOp_sub, subscribe_fst]
    constructor
    · intro p hp
      have hp2 : p ∈ mapSet s.rt.subscriptionsCounter chs s.rt.subscriptions := hp
      rcases mem_mapSet hp2 with h1 | h1
      · exact habs p h1
      · rw [h1]
        exact fun hbad => Nat.lt_irrefl k (hbad ▸ hcnt)
    · exact Nat.lt_succ_of_lt hcnt
  | unsub k2 =>
    cases hl : lookupSub k2 s.ledger with
    | none =>
      rw [stepOp_unsub_missing hl]
      exact ⟨habs, hcnt⟩
    | some chs =>
      rw [stepOp_unsub_found hl]
      refine ⟨?_, hcnt⟩
      intro p hp
      have hp2 : p ∈ mapDelete k2 s.rt.subscriptions := hp
      exact habs p (mem_mapDelete.mp hp2).1

lemma stepOp_ledger_some (s : TState) (op : COp) (k : Nat) (v : List String)
    (h : lookupSub k s.ledger = some v) :
    lookupSub k (stepOp s op).ledger = some v := by
  cases op with
  | sub chs =>
    rw [stepOp_sub]
    exact lookupSub_append_some h
  | unsub k2 =>
    cases hl : lookupSub k2 s.ledger with
    | none =>
      rw [stepOp_unsub_missing hl]
      exact h
    | some chs =>
      rw [stepOp_unsub_found hl]
      exact h

lemma foldl_absent (mid : List COp) : ∀ s : TState, ∀ k : Nat,
    k < s.rt.subscriptionsCounter → (∀ p ∈ s.rt.subscriptions, p.1 ≠ k) →
    (∀ p ∈ (mid.foldl stepOp s).rt.subscriptions, p.1 ≠ k) ∧
      k < (mid.foldl stepOp s).rt.subscriptionsCounter := by
  induction mid with
  | nil => exact fun s k h1 h2 => ⟨h2, h1⟩
  | cons op rest ih =>
    intro s k h1 h2
    have h3 := stepOp_absent s op k h1 h2
    exact ih (stepOp s op) k h3.2 h3.1

lemma foldl_ledger_some (mid : List COp) : ∀ s : TState, ∀ k : Nat, ∀ v : List String,
    lookupSub k s.ledger = some v →
    lookupSub k (mid.foldl stepOp s).ledger = some v := by
  induction mid with
  | nil => exact fun s k v h => h
  | cons op rest ih => exact fun s k v h => ih _ k v (stepOp_ledger_some s op k v h)

lemma unsub_removes {s : TState} (hInv : SInv s) (k : Nat) :
    ∀ p ∈ (stepOp s (.unsub k)).rt.subscriptions, p.1 ≠ k := by
  cases hl : lookupSub k s.ledger with
  | none =>
    rw [stepOp_unsub_missing hl]
    intro p hp hpk
    have hag := hInv.agree p hp
    rw [hpk, hl] at hag
    cases hag
  | some chs =>
    rw [stepOp_unsub_found hl]
    intro p hp
    have hp2 : p ∈ mapDelete k s.rt.subscriptions := hp
    exact (mem_mapDelete.mp hp2).2

lemma cleanUp_noop {rt : Realtime} (channelList : List String)
    (h : ∀ c ∈ rt.channels, ∃ p ∈ rt.subscriptions, c ∈ p.2) :
    (cleanUp channelList rt).channels = rt.channels := by
  show rt.channels.filter (fun c =>
      !(channelList.contains c && !(rt.subscriptions.any fun p => p.2.contains c))) =
    rt.channels
  rw [List.filter_eq_self]
  intro c hc
  rw [(any_contains_iff rt.subscriptions c).mpr (h c hc)]
  simp

/-!
Claim theorems.
-/

/-- Claim C1: after every finite sequence of subscribe and
unsubscribe-closure invocations started from a fresh Client, the realtime
channel set equals exactly the union of the channel lists of the
subscriptions currently held in the subscriptions map, never a strict
superset and never a strict subset. -/
theorem channel_set_eq_union_of_subscriptions (ops : List COp) (c : String) :
    c ∈ (runOps ops).rt.channels ↔ ∃ p ∈ (runOps ops).rt.subscriptions, c ∈ p.2 :=
  (inv_runOps ops).chan c

/-- Claim C8: for a subscription allocated by a subscribe in the prefix,
invoking its returned unsubscribe closure a second time, with arbitrary
operations interleaved between the two invocations, leaves the
subscriptions map and the channel set exactly as they were immediately
before the second invocation. -/
theorem unsubscribe_second_call_noop (pre mid : List COp) (k : Nat)
    (hk : (lookupSub k (runOps pre).ledger).isSome = true) :
    (stepOp (runOps (pre ++ COp.unsub k :: mid)) (COp.unsub k)).rt.subscriptions =
      (runOps (pre ++ COp.unsub k :: mid)).rt.subscriptions ∧
    (stepOp (runOps (pre ++ COp.unsub k :: mid)) (COp.unsub k)).rt.channels =
      (runOps (pre ++ COp.unsub k :: mid)).rt.channels := by
  obtain ⟨v, hv⟩ := Option.isSome_iff_exists.mp hk
  have hInv0 : SInv (runOps pre) := inv_runOps pre
  have hkcnt : k < (runOps pre).rt.subscriptionsCounter :=
    hInv0.lbound (k, v) (lookupSub_some_mem hv)
  have habs1 : ∀ p ∈ (stepOp (runOps pre) (COp.unsub k)).rt.subscriptions, p.1 ≠ k :=
    unsub_removes hInv0 k
  have hcnt1 : k < (stepOp (runOps pre) (COp.unsub k)).rt.subscriptionsCounter :=
    Nat.lt_of_lt_of_le hkcnt (stepOp_counter_mono (runOps pre) (COp.unsub k))
  have habs2 := foldl_absent mid (stepOp (runOps pre) (COp.unsub k)) k hcnt1 habs1
  have hled1 : lookupSub k (stepOp (runOps pre) (COp.unsub k)).ledger = some v :=
    stepOp_ledger_some (runOps pre) (COp.unsub k) k v hv
  have hled2 :
      lookupSub k (mid.foldl stepOp (stepOp (runOps pre) (COp.unsub k))).ledger = some v :=
    foldl_ledger_some mid _ k v hled1
  have hInv2 : SInv (mid.foldl stepOp (stepOp (runOps pre) (COp.unsub k))) :=
    inv_foldl mid _ (inv_stepOp hInv0 (COp.unsub k))
  have hrun : runOps (pre ++ COp.unsub k :: mid) =
      mid.foldl stepOp (stepOp (runOps pre) (COp.unsub k)) := by
    rw [runOps, runOps, List.foldl_append, List.foldl_cons]
  rw [hrun, stepOp_unsub_found hled2]
  constructor
  · show mapDelete k (mid.foldl stepOp (stepOp (runOps pre) (COp.unsub k))).rt.subscriptions =
      (mid.foldl stepOp (stepOp (runOps pre) (COp.unsub k))).rt.subscriptions
    exact mapDelete_of_not_mem habs2.1
  · have h0 : ∀ c ∈ (mid.foldl stepOp (stepOp (runOps pre) (COp.unsub k))).rt.channels,
        ∃ p ∈ mapDelete k
          (mid.foldl stepOp (stepOp (runOps pre) (COp.unsub k))).rt.subscriptions,
          c ∈ p.2 := by
      intro c hc
      obtain ⟨p, hp, hcp⟩ := (hInv2.chan c).mp hc
      exact ⟨p, mem_mapDelete.mpr ⟨hp, habs2.1 p hp⟩, hcp⟩
    exact cleanUp_noop v h0

/-- Concrete instance of the second-unsubscribe no-op theorem: one
subscription to channel a, unsubscribed once; the second invocation of the
same closure changes neither the subscriptions map nor the channel set. -/
theorem unsubscribe_second_call_noop_witness :
    (lookupSub 0 (runOps [COp.sub ["a"]]).ledger).isSome = true ∧
    ((stepOp (runOps ([COp.sub ["a"]] ++ COp.unsub 0 :: [])) (COp.unsub 0)).rt.subscriptions =
        (runOps ([COp.sub ["a"]] ++ COp.unsub 0 :: [])).rt.subscriptions ∧
      (stepOp (runOps ([COp.sub ["a"]] ++ COp.unsub 0 :: [])) (COp.unsub 0)).rt.channels =
        (runOps ([COp.sub ["a"]] ++ COp.unsub 0 :: [])).rt.channels) :=
  ⟨by decide, unsubscribe_second_call_noop [COp.sub ["a"]] [] 0 (by decide)⟩

/-- Claim C5: the backoff tiers of getTimeout over the attempt counter. -/
theorem getTimeout_tiers (n : Nat) :
    (n ≤ 4 → getTimeout n = 1000) ∧
    (5 ≤ n → n ≤ 14 → getTimeout n = 5000) ∧
    (15 ≤ n → n ≤ 99 → getTimeout n = 10000) ∧
    (100 ≤ n → getTimeout n = 60000) := by
  unfold getTimeout
  refine ⟨fun h => ?_, fun h1 h2 => ?_, fun h1 h2 => ?_, fun h => ?_⟩
  · rw [if_pos (by omega)]
  · rw [if_neg (by omega), if_pos (by omega)]
  · rw [if_neg (by omega), if_neg (by omega), if_pos (by omega)]
  · rw [if_neg (by omega), if_neg (by omega), if_neg (by omega)]

/-- Concrete instance of the backoff tiers: seven prior attempts fall in the
middle tier and yield a five second delay. -/
theorem getTimeout_tiers_witness : 5 ≤ 7 ∧ (7 : Nat) ≤ 14 ∧ getTimeout 7 = 5000 :=
  ⟨by decide, by decide, (getTimeout_tiers 7).2.1 (by decide) (by decide)⟩

/-- Claim C2: for a close event handled with the suppression flag enabled,
a last message of the error kind with code 1008 schedules zero reconnect
timers; any other last message schedules exactly one timer whose delay is
getTimeout at the current attempt counter and whose firing increments the
attempt counter by one and invokes createSocket again. -/
theorem close_reconnect_policy (rt : Realtime) (h : rt.reconnect = true) :
    (isPolicyViolation rt.lastMessage = true → (handleClose rt).2 = []) ∧
    (isPolicyViolation rt.lastMessage = false →
      (handleClose rt).2 = [getTimeout rt.reconnectAttempts] ∧
      ∀ cfg : Config, fireReconnect cfg rt =
        createSocket cfg { rt with reconnectAttempts := rt.reconnectAttempts + 1 }) := by
  constructor
  · intro hp
    simp [handleClose, h, hp]
  · intro hp
    refine ⟨?_, fun cfg => rfl⟩
    simp [handleClose, h, hp]

/-- Concrete state whose last parsed message is an error frame with the
policy-violation code 1008 and whose suppression flag is enabled. -/
def rtC2 : Realtime :=
  { initialRealtime with lastMessage := some { type := "error", code := some 1008 } }

/-- Concrete instance of the close policy: with the 1008 error as last
message and reconnect enabled, the close schedules zero reconnect timers. -/
theorem close_reconnect_policy_witness :
    rtC2.reconnect = true ∧ isPolicyViolation rtC2.lastMessage = true ∧
      (handleClose rtC2).2 = [] :=
  ⟨rfl, by decide, (close_reconnect_policy rtC2 rfl).1 (by decide)⟩

lemma stale_rs_iff (s : Socket) :
    wsOPEN < s.readyState ↔ (s.readyState = wsCLOSING ∨ s.readyState = wsCLOSED) := by
  rcases s with ⟨rs, u⟩
  show wsOPEN < rs ↔ (rs = wsCLOSING ∨ rs = wsCLOSED)
  fin_cases rs <;> decide

lemma createSocket_guard_iff (cfg : Config) (rt : Realtime) :
    (((realtimeUrl cfg rt.channels != rt.url) || rt.socket.isNone ||
        socketStale rt.socket) = true) ↔
      (realtimeUrl cfg rt.channels ≠ rt.url ∨ rt.socket = none ∨
        ∃ s, rt.socket = some s ∧
          (s.readyState = wsCLOSING ∨ s.readyState = wsCLOSED)) := by
  cases hs : rt.socket with
  | none => simp [socketStale]
  | some s => simp [socketStale, bne_iff_ne, stale_rs_iff]

/-- Claim C3: createSocket does nothing on an empty channel set; on a
non-empty set it opens a new socket to the computed URL exactly when that
URL differs from the stored one, no socket exists, or the socket is CLOSING
or CLOSED; when it replaces a CONNECTING or OPEN socket it first clears the
reconnect flag and closes that socket; and when the URL is unchanged and
the socket is CONNECTING or OPEN it takes no action. -/
theorem createSocket_behavior (cfg : Config) (rt : Realtime) :
    (rt.channels = [] → createSocket cfg rt = ⟨rt, false, none⟩) ∧
    (rt.channels ≠ [] →
      ((createSocket cfg rt).opened = some (realtimeUrl cfg rt.channels) ↔
        (realtimeUrl cfg rt.channels ≠ rt.url ∨ rt.socket = none ∨
          ∃ s, rt.socket = some s ∧
            (s.readyState = wsCLOSING ∨ s.readyState = wsCLOSED))) ∧
      ((realtimeUrl cfg rt.channels = rt.url ∧
          ∃ s, rt.socket = some s ∧
            (s.readyState = wsCONNECTING ∨ s.readyState = wsOPEN)) →
        createSocket cfg rt = ⟨rt, false, none⟩) ∧
      ((createSocket cfg rt).opened = some (realtimeUrl cfg rt.channels) →
        (createSocket cfg rt).state.socket =
          some ⟨wsCONNECTING, realtimeUrl cfg rt.channels⟩ ∧
        (createSocket cfg rt).state.url = realtimeUrl cfg rt.channels) ∧
      (∀ s, rt.socket = some s →
        (s.readyState = wsCONNECTING ∨ s.readyState = wsOPEN) →
        realtimeUrl cfg rt.channels ≠ rt.url →
        (createSocket cfg rt).closedPrevious = true ∧
        (createSocket cfg rt).state.reconnect = false)) := by
  constructor
  · intro he
    simp [createSocket, he]
  · intro hne
    have hl : ¬ (rt.channels.length < 1) := by
      cases hc : rt.channels with
      | nil => exact absurd hc hne
      | cons a l => simp [hc]
    by_cases hb : ((realtimeUrl cfg rt.channels != rt.url) || rt.socket.isNone ||
        socketStale rt.socket) = true
    · have hcs : createSocket cfg rt =
          ⟨{ (if socketLive rt.socket then { rt with reconnect := false } else rt) with
              url := realtimeUrl cfg rt.channels,
              socket := some ⟨wsCONNECTING, realtimeUrl cfg rt.channels⟩ },
            socketLive rt.socket, some (realtimeUrl cfg rt.channels)⟩ := by
        unfold createSocket
        rw [if_neg hl, if_pos hb]
      refine ⟨?_, ?_, ?_, ?_⟩
      · rw [hcs]
        exact ⟨fun _ => (createSocket_guard_iff cfg rt).mp hb, fun _ => rfl⟩
      · rintro ⟨hurl, s, hs, hrs⟩
        exfalso
        rcases (createSocket_guard_iff cfg rt).mp hb with h1 | h1 | h1
        · exact h1 hurl
        · rw [hs] at h1
          cases h1
        · obtain ⟨s2, hs2, hrs2⟩ := h1
          rw [hs] at hs2
          injection hs2 with hss
          subst hss
          rcases hrs with h3 | h3 <;> rcases hrs2 with h4 | h4 <;> rw [h3] at h4 <;>
            exact absurd h4 (by decide)
      · intro hop
        rw [hcs]
        exact ⟨rfl, rfl⟩
      · intro s hs hrs hurl
        have hlive : socketLive rt.socket = true :=
          (socketLive_iff rt.socket).mpr ⟨s, hs, hrs⟩
        rw [hcs]
        refine ⟨hlive, ?_⟩
        show (if socketLive rt.socket then { rt with reconnect := false }
          else rt).reconnect = false
        simp [hlive]
    · have hcs : createSocket cfg rt = ⟨rt, false, none⟩ := by
        unfold createSocket
        rw [if_neg hl, if_neg hb]
      refine ⟨?_, fun _ => hcs, ?_, ?_⟩
      · rw [hcs]
        constructor
        · intro hop
          cases hop
        · intro hcond
          exact absurd ((createSocket_guard_iff cfg rt).mpr hcond) hb
      · intro hop
        rw [hcs] at hop
        cases hop
      · intro s hs hrs hurl
        exact absurd ((createSocket_guard_iff cfg rt).mpr (Or.inl hurl)) hb

/-- Concrete configuration shared by the concrete instances below. -/
def cfgW : Config := ⟨"wss://example/v1", "proj"⟩

/-- Concrete environment with no stored cookie entries. -/
def envW : Env := ⟨.parsed (fun _ => none)⟩

/-- Concrete non-empty state with no socket yet. -/
def rtC3 : Realtime := { initialRealtime with channels := ["a"] }

/-- Concrete instance of the createSocket behavior: with one channel and no
existing socket, a socket to the computed URL is opened. -/
theorem createSocket_behavior_witness :
    (createSocket cfgW rtC3).opened = some (realtimeUrl cfgW rtC3.channels) :=
  ((createSocket_behavior cfgW rtC3).2 (by decide)).1.mpr (Or.inr (Or.inl rfl))

/-- Claim C6: for a non-empty channel set, the URL createSocket opens is the
configured realtime endpoint followed by the realtime path and a query
holding the project id and one repeated channels parameter per channel of
the set; and for any two channel lists equal as sets, the channel query
parameters are equal as a set. -/
theorem realtime_url_spec (cfg : Config) (rt : Realtime) (h : rt.channels ≠ []) :
    ((createSocket cfg rt).opened ≠ none →
      (createSocket cfg rt).opened = some (cfg.endpointRealtime ++ "/realtime?" ++
        serializeParams (("project", cfg.project) ::
          rt.channels.map (fun c => ("channels[]", c))))) ∧
    (∀ l1 l2 : List String, (∀ c, c ∈ l1 ↔ c ∈ l2) →
      (l1.map (fun c => (("channels[]" : String), c))).toFinset =
        (l2.map (fun c => (("channels[]" : String), c))).toFinset) := by
  constructor
  · intro hop
    have hl : ¬ (rt.channels.length < 1) := by
      cases hc : rt.channels with
      | nil => exact absurd hc h
      | cons a l => simp [hc]
    unfold createSocket at hop ⊢
    rw [if_neg hl] at hop ⊢
    by_cases hb : ((realtimeUrl cfg rt.channels != rt.url) || rt.socket.isNone ||
        socketStale rt.socket) = true
    · rw [if_pos hb]
      rfl
    · rw [if_neg hb] at hop
      exact absurd rfl hop
  · intro l1 l2 hiff
    ext p
    simp only [List.mem_toFinset, List.mem_map]
    constructor
    · rintro ⟨c, hc, rfl⟩
      exact ⟨c, (hiff c).mp hc, rfl⟩
    · rintro ⟨c, hc, rfl⟩
      exact ⟨c, (hiff c).mpr hc, rfl⟩

/-- Concrete instance of URL determinism: the two orders of the channel
pair a, b give the same set of channel query parameters. -/
theorem realtime_url_spec_witness :
    (["a", "b"].map (fun c => (("channels[]" : String), c))).toFinset =
      (["b", "a"].map (fun c => (("channels[]" : String), c))).toFinset :=
  (realtime_url_spec cfgW rtC3 (by decide)).2 ["a", "b"] ["b", "a"]
    (fun c => by constructor <;> intro hc <;> simp at hc ⊢ <;> tauto)

/-- Claim C7: the message handler is its try block wrapped in a catch that
returns normally: whenever the try block raises, the handler returns the
state at the throw with no outbound frames and no scheduled callbacks, and
in particular a frame that fails to parse and a frame of the error kind
both raise internally yet return normally. -/
theorem onMessage_catches_exceptions (cfg : Config) (env : Env) (rt : Realtime)
    (raw : Option RTMessage) :
    (∀ e, onMessageTry cfg env rt raw = .error e →
      onMessage cfg env rt raw = (e.1, [], [])) ∧
    (raw = none → onMessageTry cfg env rt raw = .error (rt, .parseFailure) ∧
      onMessage cfg env rt raw = (rt, [], [])) ∧
    (∀ m, raw = some m → m.type = "error" →
      onMessageTry cfg env rt raw =
        .error ({ rt with lastMessage := some m }, .thrownErrorData m.code) ∧
      onMessage cfg env rt raw = ({ rt with lastMessage := some m }, [], [])) := by
  refine ⟨?_, ?_, ?_⟩
  · intro e he
    simp [onMessage, he]
  · intro hn
    subst hn
    exact ⟨rfl, rfl⟩
  · intro m hm ht
    subst hm
    have h1 : (m.type == "connected") = false := by
      rw [ht]
      decide
    have h2 : (m.type == "event") = false := by
      rw [ht]
      decide
    have h3 : (m.type == "error") = true := by
      rw [ht]
      decide
    have htry : onMessageTry cfg env rt (some m) =
        .error ({ rt with lastMessage := some m }, .thrownErrorData m.code) := by
      simp [onMessageTry, h1, h2, h3]
    exact ⟨htry, by simp [onMessage, htry]⟩

/-- Concrete error frame used by the message handler instances. -/
def msgC7 : RTMessage := { type := "error", code := some 13 }

/-- Concrete instance of exception catching: an error frame makes the try
block raise, and the handler still returns normally with no actions. -/
theorem onMessage_catches_exceptions_witness :
    onMessage cfgW envW initialRealtime (some msgC7) =
      ({ initialRealtime with lastMessage := some msgC7 }, [], []) :=
  ((onMessage_catches_exceptions cfgW envW initialRealtime (some msgC7)).2.2
    msgC7 rfl rfl).2

/-- Claim C4: an event frame carrying a channel list disjoint from the
channel set schedules no callback; otherwise a deferred invocation carrying
the event body is scheduled for exactly the subscriptions whose channel
list intersects the event's channel list, and for no other. -/
theorem event_dispatch (cfg : Config) (env : Env) (rt : Realtime) (m : RTMessage)
    (evch : List String) (ht : m.type = "event") (hc : m.channels = some evch) :
    (evch.any (fun c => rt.channels.contains c) = false →
      (onMessage cfg env rt (some m)).2.2 = []) ∧
    (evch.any (fun c => rt.channels.contains c) = true →
      (onMessage cfg env rt (some m)).2.2 =
        (rt.subscriptions.filter (fun p => evch.any (fun c => p.2.contains c))).map
          (fun p => (p.1, m))) := by
  have h1 : (m.type == "connected") = false := by
    rw [ht]
    decide
  have h2 : (m.type == "event") = true := by
    rw [ht]
    decide
  constructor
  · intro hdisj
    have hdisj2 : ∀ x ∈ evch, x ∉ rt.channels := by
      intro x hx hmem
      have hco : (evch.any fun c => rt.channels.contains c) = true :=
        List.any_eq_true.mpr ⟨x, hx, List.elem_iff.mpr hmem⟩
      rw [hdisj] at hco
      cases hco
    simp only [onMessage, onMessageTry, h1, h2, hc]
    simp
    rw [if_pos hdisj2]
  · intro hint
    have hint2 : ¬ (∀ x ∈ evch, x ∉ rt.channels) := by
      obtain ⟨x, hx, hmem⟩ := List.any_eq_true.mp hint
      intro hall
      exact hall x hx (List.elem_iff.mp hmem)
    simp only [onMessage, onMessageTry, h1, h2, hc]
    simp
    rw [if_neg hint2]

/-- Concrete state with two subscriptions on distinct channels. -/
def rtC4 : Realtime :=
  { initialRealtime with
      channels := ["files", "docs"]
      subscriptions := [(0, ["files"]), (1, ["docs"])]
      subscriptionsCounter := 2 }

/-- Concrete event frame naming the files channel. -/
def msgC4 : RTMessage := { type := "event", channels := some ["files"] }

/-- Concrete instance of event dispatch: an event on the files channel is
scheduled exactly for the files subscription and not for the docs one. -/
theorem event_dispatch_witness :
    (onMessage cfgW envW rtC4 (some msgC4)).2.2 = [(0, msgC4)] := by
  have h := (event_dispatch cfgW envW rtC4 msgC4 ["files"] rfl rfl).2 (by decide)
  rw [h]
  decide

/-- Concrete cookie store holding the empty string as the session credential
for project proj. -/
def cookieC9 : String → Option String :=
  fun k => if k = sessionKey "proj" then some "" else none

/-- Concrete environment built from that cookie store. -/
def envC9 : Env := ⟨.parsed cookieC9⟩

/-- Concrete connected frame reporting no authenticated user. -/
def msgConnected : RTMessage := { type := "connected" }

/-- Claim C9 counterexample: the cookie stores a session credential (the
empty string) for the configured project and the connected frame reports no
user, yet the handler sends no authentication frame, because the source
guards the send with JavaScript truthiness of the credential and the empty
string is falsy. -/
theorem auth_on_connect_cex :
    cookieC9 (sessionKey cfgW.project) = some "" ∧
    msgConnected.user = false ∧
    (onMessage cfgW envC9 initialRealtime (some msgConnected)).2.1 = [] ∧
    ¬ ((onMessage cfgW envC9 initialRealtime (some msgConnected)).2.1.length = 1) := by
  refine ⟨by decide, rfl, by decide, by decide⟩

/-- Claim C9 (amended): on a connected frame with a parsed cookie store, a
stored non-empty session credential together with a body reporting no user
sends exactly one authentication frame carrying that credential; if the
body reports a user, or no credential is stored, or the stored credential
is the empty string, no frame is sent. -/
theorem auth_on_connect_amended (cfg : Config) (env : Env) (rt : Realtime)
    (m : RTMessage) (lookup : String → Option String) (ht : m.type = "connected")
    (hcook : env.cookie = .parsed lookup) :
    (∀ s, lookup (sessionKey cfg.project) = some s → s ≠ "" → m.user = false →
      (onMessage cfg env rt (some m)).2.1 = [⟨"authentication", s⟩]) ∧
    (m.user = true → (onMessage cfg env rt (some m)).2.1 = []) ∧
    (lookup (sessionKey cfg.project) = none →
      (onMessage cfg env rt (some m)).2.1 = []) ∧
    (lookup (sessionKey cfg.project) = some "" →
      (onMessage cfg env rt (some m)).2.1 = []) := by
  have h1 : (m.type == "connected") = true := by
    rw [ht]
    decide
  refine ⟨?_, ?_, ?_, ?_⟩
  · intro s hs hne hu
    simp [onMessage, onMessageTry, h1, hcook, hs, hne, hu]
  · intro hu
    cases hs : lookup (sessionKey cfg.project) with
    | none => simp [onMessage, onMessageTry, h1, hcook, hs]
    | some s => simp [onMessage, onMessageTry, h1, hcook, hs, hu]
  · intro hs
    simp [onMessage, onMessageTry, h1, hcook, hs]
  · intro hs
    simp [onMessage, onMessageTry, h1, hcook, hs]

/-- Concrete cookie store holding a non-empty credential for project proj. -/
def cookieC9W : String → Option String :=
  fun k => if k = sessionKey "proj" then some "secret" else none

/-- Concrete environment built from the non-empty credential store. -/
def envC9W : Env := ⟨.parsed cookieC9W⟩

/-- Concrete instance of the amended authentication property: the stored
non-empty credential is sent in exactly one authentication frame. -/
theorem auth_on_connect_amended_witness :
    (onMessage cfgW envC9W initialRealtime (some msgConnected)).2.1 =
      [⟨"authentication", "secret"⟩] :=
  (auth_on_connect_amended cfgW envC9W initialRealtime msgConnected cookieC9W
    rfl rfl).1 "secret" (by decide) (by decide) rfl

/-- Concrete error frame carrying the policy-violation code. -/
def err1008Msg : RTMessage := { type := "error", code := some 1008 }

/-- Concrete connected state with one subscription and an open socket. -/
def rtC10 : Realtime :=
  { initialRealtime with
      channels := ["files"]
      subscriptions := [(0, ["files"])]
      subscriptionsCounter := 1
      socket := some ⟨wsOPEN, "u"⟩ }

lemma onMessageTry_lastMessage (cfg : Config) (env : Env) (rt : Realtime) (m : RTMessage) :
    (∀ r, onMessageTry cfg env rt (some m) = .ok r → r.1.lastMessage = some m) ∧
    (∀ e, onMessageTry cfg env rt (some m) = .error e → e.1.lastMessage = some m) := by
  constructor <;> intro x hx <;> unfold onMessageTry at hx <;>
    (repeat' split at hx) <;> (try cases hx) <;>
    simp_all <;> (split at hx <;> cases hx <;> rfl)

/-- Claim C10: the close listener never clears the last parsed message, the
message handler records every parsed frame as the last message, and in the
concrete run where a 1008 error frame is followed by two close events with
no frame parsed in between, both closes schedule zero reconnect timers. -/
theorem suppression_persists_across_closes :
    (∀ rt : Realtime, (handleClose rt).1.lastMessage = rt.lastMessage) ∧
    (∀ (cfg : Config) (env : Env) (rt : Realtime) (m : RTMessage),
      (onMessage cfg env rt (some m)).1.lastMessage = some m) ∧
    ((handleClose (onMessage cfgW envW rtC10 (some err1008Msg)).1).2 = [] ∧
      (handleClose (handleClose (onMessage cfgW envW rtC10 (some err1008Msg)).1).1).2 = []) := by
  refine ⟨?_, ?_, by decide, by decide⟩
  · intro rt
    unfold handleClose
    split <;> rfl
  · intro cfg env rt m
    unfold onMessage
    cases htry : onMessageTry cfg env rt (some m) with
    | ok r =>
      have := (onMessageTry_lastMessage cfg env rt m).1 r htry
      simpa using this
    | error e =>
      have := (onMessageTry_lastMessage cfg env rt m).2 e htry
      simpa using this
